import Mathlib

/-!
# Dodecahedron logger firmware — shallow embedding

Embedding of `src/src_mcu/src/main.cpp` (Arduino firmware for an
Adafruit Feather M4 with a DS18B20 one-wire probe and a BME280 I2C
sensor).  The external drivers (DallasTemperature, Adafruit_BME280,
Adafruit_NeoPixel, DvG_SerialCommand, the Arduino core) are modelled as
oracles: an `Env` records the successive return values of each external
call, and the firmware's observable actions are recorded in an event
trace.  Sensor floats are modelled as `FVal` (a rational, or the
not-a-number sentinel the drivers use for an absent reading).
-/

namespace Dodecahedron

/-- A sensor float: either the driver's not-a-number sentinel (the value
the DS18B20 driver returns for an absent probe, and the initial value of
all four reading globals) or a numeric value, modelled as a rational. -/
inductive FVal where
  | nan : FVal
  | val : ℚ → FVal
deriving DecidableEq, Repr

/-- `#define NEO_DIM 3` — brightness level for dim intensity. -/
def NEO_DIM : ℕ := 3

/-- `#define NEO_BRIGHT 8` — brightness level for bright intensity. -/
def NEO_BRIGHT : ℕ := 8

/-- Observable external actions of the firmware. `ledShow r g b` is a
`neo.setPixelColor(0, neo.Color(r, g, b)); neo.show()` pair;
`serialLine s` is `Serial.println(s)`; the sensor events are the calls
into the DS18B20 and BME280 drivers. -/
inductive Event where
  | ledShow : ℕ → ℕ → ℕ → Event
  | serialBegin : ℕ → Event
  | ds18Begin : Event
  | serialLine : String → Event
  | delayMs : ℕ → Event
  | ds18Request : Event
  | ds18Read : Event
  | bmeReadTemp : Event
  | bmeReadHumi : Event
  | bmeReadPres : Event
deriving DecidableEq, Repr

/-- Oracle for the external calls: field `f i` is the value returned by
the `i`-th call (0-based) of the corresponding external function. -/
structure Env where
  millis : ℕ → ℕ
  ds18Vals : ℕ → FVal
  bmeTempVals : ℕ → FVal
  bmeHumiVals : ℕ → FVal
  bmePresVals : ℕ → FVal
  bmeBeginOk : ℕ → Bool

/-- The firmware's mutable state: the four reading globals of
`main.cpp` (lines 46-49) plus a call counter per external oracle. -/
structure MCUState where
  ds18_temp : FVal
  bme280_temp : FVal
  bme280_humi : FVal
  bme280_pres : FVal
  millisCount : ℕ
  ds18Count : ℕ
  bmeTempCount : ℕ
  bmeHumiCount : ℕ
  bmePresCount : ℕ
deriving DecidableEq, Repr

/-- Power-on state: all four reading globals hold the NAN sentinel
(`float ds18_temp(NAN);` etc.), no external call made yet. -/
def initState : MCUState :=
  { ds18_temp := .nan, bme280_temp := .nan, bme280_humi := .nan,
    bme280_pres := .nan, millisCount := 0, ds18Count := 0,
    bmeTempCount := 0, bmeHumiCount := 0, bmePresCount := 0 }

/-- The identification response of line 93. -/
def idString : String := "Arduino, Dodecahedron logger"

/-- The startup diagnostic of line 65. -/
def bmeDiag : String := "Could not find a valid BME280 sensor, check wiring!"

/-! ## Number formatting

Model of the Arduino `String(value)` / `String(float, decimals)`
conversions used on lines 103-105.  A natural number prints as its
decimal numeral; a float prints as a signed fixed-point numeral with the
requested number of decimals, and the NAN sentinel prints as `nan`. -/

/-- Decimal digit character for `n % 10`. -/
def digitChar (n : ℕ) : Char := Char.ofNat (48 + n % 10)

/-- Decimal numeral digits, fuel-bounded so that the recursion is
structural (any `fuel > n` yields the numeral of `n`). -/
def natDigitsF : ℕ → ℕ → List Char
  | 0, _ => []
  | fuel + 1, n =>
    if n < 10 then [digitChar n]
    else natDigitsF fuel (n / 10) ++ [digitChar (n % 10)]

/-- Decimal numeral of a natural number, most significant digit first. -/
def natDigits (n : ℕ) : List Char := natDigitsF (n + 1) n

/-- `String(now)` for an unsigned integer. -/
def natStr (n : ℕ) : String := ⟨natDigits n⟩

/-- Left-pad a digit list with zeros to length `d`. -/
def padZeros (d : ℕ) (l : List Char) : List Char :=
  List.replicate (d - l.length) '0' ++ l

/-- `⌊q * 10 ^ d + 1 / 2⌋`, computed on the numerator and denominator so
that the kernel can evaluate it: the value rounded to the nearest
multiple of `10 ^ (-d)`, in units of `10 ^ (-d)`. -/
def scaledRound (q : ℚ) (d : ℕ) : ℤ :=
  Int.fdiv (2 * q.num * 10 ^ d + q.den) (2 * q.den)

/-- Model of Arduino `String(float value, unsigned char decimals)`:
round the value to `d` decimals and print it in fixed point; the NAN
sentinel prints as the literal `nan`. -/
def fmtFVal (v : FVal) (d : ℕ) : String :=
  match v with
  | .nan => "nan"
  | .val q =>
    let scaled : ℤ := scaledRound q d
    let sign : List Char := if scaled < 0 then ['-'] else []
    let m : ℕ := scaled.natAbs
    if d = 0 then ⟨sign ++ natDigits (m / 10 ^ d)⟩
    else ⟨sign ++ natDigits (m / 10 ^ d) ++
          '.' :: padZeros d (natDigits (m % 10 ^ d))⟩

/-- The response line of lines 103-105:
`String(now) + '\t' + String(ds18_temp, 1) + '\t' + String(bme280_temp, 1)
 + '\t' + String(bme280_humi, 1) + '\t' + String(bme280_pres, 0)`. -/
def mkLine (now : ℕ) (p t h pr : FVal) : String :=
  natStr now ++ "\t" ++ fmtFVal p 1 ++ "\t" ++ fmtFVal t 1 ++ "\t" ++
    fmtFVal h 1 ++ "\t" ++ fmtFVal pr 0

/-- Parse a decimal digit list back into a natural number. -/
def digitsToNat (l : List Char) : ℕ :=
  l.foldl (fun a c => 10 * a + (c.toNat - 48)) 0

/-! ## Tab-separated fields -/

/-- Split a character list on tab characters (the field separator of the
response line). -/
def splitTabs : List Char → List (List Char)
  | [] => [[]]
  | c :: rest =>
    match splitTabs rest with
    | [] => [[c]]
    | f :: fs => if c = '\t' then [] :: f :: fs else (c :: f) :: fs

/-! ## The command handler (`loop`, lines 82-111)

`loop` polls the serial command listener; when a complete command is
available it flashes the LED bright green, dispatches on the command
string, and restores the LED to dim green.  `handleCmd` is the body of
the `if (sc.available())` block, for a received command `strCmd`. -/

/-- Body of the `if (sc.available())` block of `loop` (lines 87-109):
flash bright green, dispatch on the command, restore dim green.
Returns the new state and the trace of observable actions. -/
def handleCmd (env : Env) (st : MCUState) (strCmd : String) :
    MCUState × List Event :=
  let (st', evs) :=
    if strCmd = "id?" then
      (st, [Event.serialLine idString])
    else
      let now := env.millis st.millisCount
      let pv := env.ds18Vals st.ds18Count
      let tv := env.bmeTempVals st.bmeTempCount
      let hv := env.bmeHumiVals st.bmeHumiCount
      let prv := env.bmePresVals st.bmePresCount
      ({ ds18_temp := pv, bme280_temp := tv, bme280_humi := hv,
         bme280_pres := prv, millisCount := st.millisCount + 1,
         ds18Count := st.ds18Count + 1,
         bmeTempCount := st.bmeTempCount + 1,
         bmeHumiCount := st.bmeHumiCount + 1,
         bmePresCount := st.bmePresCount + 1 },
       [Event.ds18Request, Event.ds18Read, Event.bmeReadTemp,
        Event.bmeReadHumi, Event.bmeReadPres,
        Event.serialLine (mkLine now pv tv hv prv)])
  (st', Event.ledShow 0 NEO_BRIGHT 0 :: evs ++ [Event.ledShow 0 NEO_DIM 0])

/-- One iteration of `loop`: `poll` is the result of `sc.available()` —
`none` when no complete command has arrived (the iteration does
nothing), `some cmd` when `sc.getCmd()` yields `cmd`. -/
def loopIter (env : Env) (st : MCUState) (poll : Option String) :
    MCUState × List Event :=
  match poll with
  | none => (st, [])
  | some cmd => handleCmd env st cmd

/-- Run `loop` over a finite sequence of poll results, concatenating the
iteration traces. -/
def runLoop (env : Env) (st : MCUState) :
    List (Option String) → MCUState × List Event
  | [] => (st, [])
  | p :: ps =>
    let (st1, e1) := loopIter env st p
    let (st2, e2) := runLoop env st1 ps
    (st2, e1 ++ e2)

/-! ## Setup (`setup`, lines 55-76) -/

/-- The `while (!bme.begin(0x76))` retry loop of lines 64-67, run with
explicit fuel since the source loop is unbounded.  `i` is the index of
the next `bme.begin` attempt; on success returns the successful attempt
index and the trace (one diagnostic line and one 1000 ms delay per
failed attempt); `none` means the fuel ran out before success. -/
def bmeBeginLoop (env : Env) : ℕ → ℕ → Option (ℕ × List Event)
  | 0, _ => none
  | fuel + 1, i =>
    if env.bmeBeginOk i then some (i, [])
    else
      match bmeBeginLoop env fuel (i + 1) with
      | none => none
      | some (j, evs) =>
        some (j, Event.serialLine bmeDiag :: Event.delayMs 1000 :: evs)

/-- `setup()` (lines 55-76): show blue, open the serial port at 9600
baud, start the one-wire driver, retry `bme.begin(0x76)` until it
succeeds, ditch one temperature/humidity/pressure reading each, and show
dim green.  Fuel-bounded through `bmeBeginLoop`; the discarded warm-up
readings advance the BME280 call counters but are not stored. -/
def setupRun (env : Env) (fuel : ℕ) : Option (MCUState × List Event) :=
  match bmeBeginLoop env fuel 0 with
  | none => none
  | some (_, beginEvs) =>
    some ({ initState with
              bmeTempCount := 1, bmeHumiCount := 1, bmePresCount := 1 },
          Event.ledShow 0 0 NEO_BRIGHT :: Event.serialBegin 9600 ::
            Event.ds18Begin :: beginEvs ++
            [Event.bmeReadTemp, Event.bmeReadHumi, Event.bmeReadPres,
             Event.ledShow 0 NEO_DIM 0])

/-! ## Trace observers -/

/-- The serial lines written in a trace, in order. -/
def linesOf (evs : List Event) : List String :=
  evs.filterMap fun e =>
    match e with
    | Event.serialLine s => some s
    | _ => none

/-- The RGB color shown on the NeoPixel after the trace has run,
starting from color `c` (the pixel keeps its last shown color). -/
def ledAfter (c : ℕ × ℕ × ℕ) : List Event → ℕ × ℕ × ℕ
  | [] => c
  | Event.ledShow r g b :: rest => ledAfter (r, g, b) rest
  | _ :: rest => ledAfter c rest

/-- Dim green: the Idle indication (line 108). -/
def idleColor : ℕ × ℕ × ℕ := (0, NEO_DIM, 0)

/-- Bright green: the Sampling flash (line 89). -/
def samplingColor : ℕ × ℕ × ℕ := (0, NEO_BRIGHT, 0)

/-- Bright blue: the Initializing indication (line 57). -/
def initColor : ℕ × ℕ × ℕ := (0, 0, NEO_BRIGHT)

/-- The response lines of a trace: serial lines with five tab-separated
fields (this excludes the identification string and the startup
diagnostic, which contain no tab). -/
def respLines (evs : List Event) : List String :=
  (linesOf evs).filter fun s => (splitTabs s.data).length = 5

/-- The timestamp fields of the response lines of a trace, parsed back
from their decimal numerals. -/
def respTimestamps (evs : List Event) : List ℕ :=
  (respLines evs).map fun s => digitsToNat ((splitTabs s.data).headI)

/-- The sensor-read calls of a trace, in order (the DS18B20 conversion
request is not itself a read). -/
def sensorReads (evs : List Event) : List Event :=
  evs.filter fun e =>
    match e with
    | Event.ds18Read | Event.bmeReadTemp | Event.bmeReadHumi
    | Event.bmeReadPres => true
    | _ => false

/-- The `delay()` calls of a trace, in order. -/
def delaysOf (evs : List Event) : List Event :=
  evs.filter fun e =>
    match e with
    | Event.delayMs _ => true
    | _ => false

/-- Does this event write a serial line? -/
def isLineEv : Event → Bool
  | Event.serialLine _ => true
  | _ => false

/-- Index of the first serial write in a trace (the emission point of
the response within a command-handling trace). -/
def emissionIdx (evs : List Event) : ℕ := evs.findIdx isLineEv

/-- State after a "read sensors" request: the four reading globals hold
the values just read, and every call counter has advanced by one. -/
def readState (env : Env) (st : MCUState) : MCUState :=
  { ds18_temp := env.ds18Vals st.ds18Count,
    bme280_temp := env.bmeTempVals st.bmeTempCount,
    bme280_humi := env.bmeHumiVals st.bmeHumiCount,
    bme280_pres := env.bmePresVals st.bmePresCount,
    millisCount := st.millisCount + 1,
    ds18Count := st.ds18Count + 1,
    bmeTempCount := st.bmeTempCount + 1,
    bmeHumiCount := st.bmeHumiCount + 1,
    bmePresCount := st.bmePresCount + 1 }

/-- The response line of a "read sensors" request served in state
`st`. -/
def reqLine (env : Env) (st : MCUState) : String :=
  mkLine (env.millis st.millisCount) (env.ds18Vals st.ds18Count)
    (env.bmeTempVals st.bmeTempCount) (env.bmeHumiVals st.bmeHumiCount)
    (env.bmePresVals st.bmePresCount)

/-- Trace of an `id?` request. -/
def idEvents : List Event :=
  [Event.ledShow 0 NEO_BRIGHT 0, Event.serialLine idString,
   Event.ledShow 0 NEO_DIM 0]

/-- Trace of a "read sensors" request served in state `st`. -/
def readEvents (env : Env) (st : MCUState) : List Event :=
  [Event.ledShow 0 NEO_BRIGHT 0, Event.ds18Request, Event.ds18Read,
   Event.bmeReadTemp, Event.bmeReadHumi, Event.bmeReadPres,
   Event.serialLine (reqLine env st), Event.ledShow 0 NEO_DIM 0]

/-- State at the end of `setup()`: the three discarded warm-up readings
have advanced the BME280 counters; the reading globals still hold the
NAN sentinel. -/
def warmState : MCUState :=
  { initState with bmeTempCount := 1, bmeHumiCount := 1, bmePresCount := 1 }

/-- Trace of a completed `setup()` whose `bme.begin` failed `N` times
before succeeding. -/
def setupTrace (N : ℕ) : List Event :=
  Event.ledShow 0 0 NEO_BRIGHT :: Event.serialBegin 9600 ::
    Event.ds18Begin ::
    (List.replicate N
      [Event.serialLine bmeDiag, Event.delayMs 1000]).flatten ++
    [Event.bmeReadTemp, Event.bmeReadHumi, Event.bmeReadPres,
     Event.ledShow 0 NEO_DIM 0]

/-- A fixed-point numeral with exactly `d` digits after the decimal
point (and no point at all when `d = 0`): an optional minus sign, a
nonempty integer part of decimal digits, then `d` fractional digits. -/
def FixedPointStr (d : ℕ) (l : List Char) : Prop :=
  ∃ sign intDigits fracDigits,
    (sign = [] ∨ sign = ['-']) ∧
    intDigits ≠ [] ∧ (∀ c ∈ intDigits, c.isDigit = true) ∧
    fracDigits.length = d ∧ (∀ c ∈ fracDigits, c.isDigit = true) ∧
    l = sign ++ intDigits ++ (if d = 0 then [] else '.' :: fracDigits)

/-- Claim C5 as stated: the indicator shows the Sampling color only
strictly between the receipt of a command (position `0` of the handling
trace) and the emission of its response (the first serial write of the
trace): position `k` — the point after the first `k` events — may show
Sampling only when `0 < k` and event `k` is still no later than the
response write. -/
def C5Stated : Prop :=
  ∀ (env : Env) (st : MCUState) (cmd : String) (k : ℕ),
    k ≤ ((handleCmd env st cmd).2).length →
    ledAfter idleColor (((handleCmd env st cmd).2).take k) = samplingColor →
    0 < k ∧ k ≤ emissionIdx ((handleCmd env st cmd).2)

/-- Claim C6 as stated: the Initializing indication uses blue at the
low brightness level `NEO_DIM`, the level also used for the Idle
green. -/
def C6Stated : Prop :=
  ∀ (env : Env) (N : ℕ),
    (∀ i < N, env.bmeBeginOk i = false) → env.bmeBeginOk N = true →
    ∃ st0 tr, setupRun env (N + 1) = some (st0, tr) ∧
      tr.head? = some (Event.ledShow 0 0 NEO_DIM)

/-- Concrete oracle: all sensors present, `bme.begin` fails twice and
then succeeds. -/
def envW : Env :=
  { millis := fun i => 100 + i,
    ds18Vals := fun _ => .val (Rat.divInt 213 10),
    bmeTempVals := fun _ => .val (Rat.divInt 215 10),
    bmeHumiVals := fun _ => .val (Rat.divInt 452 10),
    bmePresVals := fun _ => .val 101325,
    bmeBeginOk := fun i => decide (2 ≤ i) }

/-- Concrete oracle: the DS18B20 probe is absent (its driver returns
the NAN sentinel), `bme.begin` succeeds immediately. -/
def envN : Env :=
  { millis := fun i => i,
    ds18Vals := fun _ => .nan,
    bmeTempVals := fun _ => .val 21,
    bmeHumiVals := fun _ => .val 45,
    bmePresVals := fun _ => .val 101325,
    bmeBeginOk := fun _ => true }

/-- Conclusion of claim C1: a non-`id?` command triggers exactly the
four sensor reads, in order, and exactly one five-field response
line with the documented field formats. -/
def ReadRequestSpec (env : Env) (st : MCUState) (cmd : String) : Prop :=
  (handleCmd env st cmd).1 = readState env st ∧
  (handleCmd env st cmd).2 = readEvents env st ∧
  sensorReads (handleCmd env st cmd).2 =
    [Event.ds18Read, Event.bmeReadTemp, Event.bmeReadHumi,
     Event.bmeReadPres] ∧
  linesOf (handleCmd env st cmd).2 = [reqLine env st] ∧
  splitTabs (reqLine env st).data =
    [natDigits (env.millis st.millisCount),
     (fmtFVal (env.ds18Vals st.ds18Count) 1).data,
     (fmtFVal (env.bmeTempVals st.bmeTempCount) 1).data,
     (fmtFVal (env.bmeHumiVals st.bmeHumiCount) 1).data,
     (fmtFVal (env.bmePresVals st.bmePresCount) 0).data] ∧
  (∀ c ∈ natDigits (env.millis st.millisCount), c.isDigit = true) ∧
  (∀ q, env.ds18Vals st.ds18Count = FVal.val q →
    FixedPointStr 1 (fmtFVal (env.ds18Vals st.ds18Count) 1).data) ∧
  (env.ds18Vals st.ds18Count = FVal.nan →
    (fmtFVal (env.ds18Vals st.ds18Count) 1).data = ['n', 'a', 'n']) ∧
  (∀ q, env.bmeTempVals st.bmeTempCount = FVal.val q →
    FixedPointStr 1 (fmtFVal (env.bmeTempVals st.bmeTempCount) 1).data) ∧
  (∀ q, env.bmeHumiVals st.bmeHumiCount = FVal.val q →
    FixedPointStr 1 (fmtFVal (env.bmeHumiVals st.bmeHumiCount) 1).data) ∧
  (∀ q, env.bmePresVals st.bmePresCount = FVal.val q →
    FixedPointStr 0 (fmtFVal (env.bmePresVals st.bmePresCount) 0).data)

/-- Conclusion of claim C3: the response line is emitted only after the
four reads of the same request, in order, and is formatted from exactly
the four freshly stored values (a consistent snapshot). -/
def SnapshotSpec (env : Env) (st : MCUState) (cmd : String) : Prop :=
  ∃ pre post : List Event,
    (handleCmd env st cmd).2 =
      pre ++ Event.serialLine (reqLine env st) :: post ∧
    sensorReads pre =
      [Event.ds18Read, Event.bmeReadTemp, Event.bmeReadHumi,
       Event.bmeReadPres] ∧
    sensorReads post = [] ∧
    linesOf (handleCmd env st cmd).2 = [reqLine env st] ∧
    reqLine env st =
      mkLine (env.millis st.millisCount) (handleCmd env st cmd).1.ds18_temp
        (handleCmd env st cmd).1.bme280_temp
        (handleCmd env st cmd).1.bme280_humi
        (handleCmd env st cmd).1.bme280_pres

/-- Conclusion of claim C4: with `N` failing `bme.begin` attempts before
a success, `setup()` completes with exactly `N` diagnostic lines and
exactly `N` 1000 ms delays, and cannot complete within the first `N`
attempts. -/
def InitRetrySpec (env : Env) (N : ℕ) : Prop :=
  setupRun env (N + 1) = some (warmState, setupTrace N) ∧
  linesOf (setupTrace N) = List.replicate N bmeDiag ∧
  delaysOf (setupTrace N) = List.replicate N (Event.delayMs 1000) ∧
  (∀ fuel, fuel ≤ N → setupRun env fuel = none)

/-- Conclusion of the amended claim C5: the LED is Initializing at
every point strictly inside `setup()`, Idle at the end of `setup()` and
at every loop-iteration boundary, Sampling exactly at the points
strictly inside a command-handling window, and the response emission is
the second-to-last event of that window, immediately followed by the
Idle restore. -/
def LedWindowSpec (env : Env) (N : ℕ) : Prop :=
  setupRun env (N + 1) = some (warmState, setupTrace N) ∧
  (∀ k, 1 ≤ k → k < (setupTrace N).length →
    ledAfter (0, 0, 0) ((setupTrace N).take k) = initColor) ∧
  ledAfter (0, 0, 0) (setupTrace N) = idleColor ∧
  (∀ (st : MCUState) (polls : List (Option String)),
    ledAfter idleColor (runLoop env st polls).2 = idleColor) ∧
  (∀ (st : MCUState) (cmd : String) (k : ℕ),
    k ≤ ((handleCmd env st cmd).2).length →
    ledAfter idleColor (((handleCmd env st cmd).2).take k) =
      if k = 0 ∨ k = ((handleCmd env st cmd).2).length then idleColor
      else samplingColor) ∧
  (∀ (st : MCUState) (cmd : String),
    ∃ pre l, (handleCmd env st cmd).2 =
        pre ++ [Event.serialLine l, Event.ledShow 0 NEO_DIM 0] ∧
      1 ≤ pre.length)

/-- Conclusion of the amended claim C6: the Initializing indication is
blue at the high brightness `NEO_BRIGHT` — the same level as the
Sampling flash — not the low `NEO_DIM` of the Idle green. -/
def InitColorSpec (env : Env) (N : ℕ) : Prop :=
  setupRun env (N + 1) = some (warmState, setupTrace N) ∧
  (setupTrace N).head? = some (Event.ledShow 0 0 NEO_BRIGHT) ∧
  (∀ (st : MCUState) (cmd : String),
    ((handleCmd env st cmd).2).head? =
      some (Event.ledShow 0 NEO_BRIGHT 0)) ∧
  Event.ledShow 0 0 NEO_DIM ∉ setupTrace N ∧
  NEO_DIM < NEO_BRIGHT

/-- Conclusion of claim C7: after `bme.begin` succeeds, exactly one
temperature, humidity and pressure reading are taken (in that order)
before the Idle indication, they are not stored, and every later
response is formatted from reads with call index at least 1 (so the
discarded index-0 warm-up readings never reach a response). -/
def WarmupSpec (env : Env) (N : ℕ) : Prop :=
  setupRun env (N + 1) = some (warmState, setupTrace N) ∧
  sensorReads (setupTrace N) =
    [Event.bmeReadTemp, Event.bmeReadHumi, Event.bmeReadPres] ∧
  (∃ pre, setupTrace N =
    pre ++ [Event.bmeReadTemp, Event.bmeReadHumi, Event.bmeReadPres,
            Event.ledShow 0 NEO_DIM 0]) ∧
  warmState.bmeTempCount = 1 ∧ warmState.bmeHumiCount = 1 ∧
  warmState.bmePresCount = 1 ∧
  warmState.ds18_temp = FVal.nan ∧ warmState.bme280_temp = FVal.nan ∧
  warmState.bme280_humi = FVal.nan ∧ warmState.bme280_pres = FVal.nan ∧
  (∀ (polls : List (Option String)) (s : String),
    s ∈ linesOf (runLoop env warmState polls).2 →
    s = idString ∨
    ∃ m i1 i2 i3 i4, 1 ≤ i2 ∧ 1 ≤ i3 ∧ 1 ≤ i4 ∧
      s = mkLine (env.millis m) (env.ds18Vals i1) (env.bmeTempVals i2)
        (env.bmeHumiVals i3) (env.bmePresVals i4))

/-- Conclusion of claim C9: when the DS18B20 driver returns its NAN
sentinel, the (unique, normally formatted, five-field) response line
carries the literal `nan` as its second field. -/
def NanSpec (env : Env) (st : MCUState) (cmd : String) : Prop :=
  linesOf (handleCmd env st cmd).2 = [reqLine env st] ∧
  (splitTabs (reqLine env st).data).length = 5 ∧
  (splitTabs (reqLine env st).data)[1]? = some ['n', 'a', 'n']

/-! ## Lemmas on decimal numerals -/

theorem natDigitsF_congr : ∀ f g n, n < f → n < g →
    natDigitsF f n = natDigitsF g n := by
  intro f
  induction f with
  | zero => intro g n h; omega
  | succ f ih =>
    intro g n hf hg
    match g, hg with
    | g + 1, _ =>
      show (if n < 10 then _ else _) = (if n < 10 then _ else _)
      by_cases h10 : n < 10
      · simp [h10]
      · have hdiv : n / 10 < n := Nat.div_lt_self (by omega) (by omega)
        simp only [h10, if_false]
        rw [ih (g) (n / 10) (by omega) (by omega)]

theorem natDigits_unfold (n : ℕ) :
    natDigits n = if n < 10 then [digitChar n]
      else natDigits (n / 10) ++ [digitChar (n % 10)] := by
  show natDigitsF (n + 1) n = _
  by_cases h10 : n < 10
  · simp [natDigitsF, h10]
  · have hdiv : n / 10 < n := Nat.div_lt_self (by omega) (by omega)
    simp only [h10, if_false]
    show (if n < 10 then _ else natDigitsF n (n / 10) ++ _) = _
    simp only [h10, if_false]
    rw [natDigitsF_congr n (n / 10 + 1) (n / 10) (by omega) (by omega)]
    rfl

theorem digitChar_isDigit (k : ℕ) : (digitChar k).isDigit = true := by
  have h : k % 10 < 10 := Nat.mod_lt _ (by norm_num)
  unfold digitChar
  interval_cases h : k % 10 <;> decide

theorem mem_natDigits_isDigit (n : ℕ) :
    ∀ c ∈ natDigits n, c.isDigit = true := by
  induction n using Nat.strong_induction_on with
  | _ n ih =>
    intro c hc
    rw [natDigits_unfold] at hc
    by_cases h10 : n < 10
    · simp only [h10, if_true, List.mem_singleton] at hc
      subst hc; exact digitChar_isDigit n
    · simp only [h10, if_false, List.mem_append, List.mem_singleton] at hc
      rcases hc with hc | hc
      · exact ih (n / 10) (Nat.div_lt_self (by omega) (by omega)) c hc
      · subst hc; exact digitChar_isDigit (n % 10)

theorem natDigits_ne_nil (n : ℕ) : natDigits n ≠ [] := by
  rw [natDigits_unfold]
  by_cases h10 : n < 10 <;> simp [h10]

theorem digitChar_toNat (k : ℕ) (h : k < 10) : (digitChar k).toNat = 48 + k := by
  unfold digitChar
  rw [Nat.mod_eq_of_lt h]
  interval_cases k <;> decide

theorem digitsToNat_append (l : List Char) (c : Char) :
    digitsToNat (l ++ [c]) = 10 * digitsToNat l + (c.toNat - 48) := by
  unfold digitsToNat
  rw [List.foldl_append]
  rfl

theorem digitsToNat_natDigits (n : ℕ) : digitsToNat (natDigits n) = n := by
  induction n using Nat.strong_induction_on with
  | _ n ih =>
    rw [natDigits_unfold]
    by_cases h10 : n < 10
    · simp only [h10, if_true]
      show digitsToNat [digitChar n] = n
      unfold digitsToNat
      simp [List.foldl, digitChar_toNat n h10]
    · simp only [h10, if_false]
      rw [digitsToNat_append,
        ih (n / 10) (Nat.div_lt_self (by omega) (by omega)),
        digitChar_toNat (n % 10) (Nat.mod_lt _ (by norm_num))]
      omega

theorem natDigits_length_le (d n : ℕ) (hn : n < 10 ^ (d + 1)) :
    (natDigits n).length ≤ d + 1 := by
  induction d generalizing n with
  | zero =>
    norm_num at hn
    rw [natDigits_unfold]
    simp [hn]
  | succ d ih =>
    rw [natDigits_unfold]
    by_cases h10 : n < 10
    · simp [h10]
    · simp only [h10, if_false, List.length_append, List.length_singleton]
      have hlt : n < 10 * 10 ^ (d + 1) := by
        have h := pow_succ' (10 : ℕ) (d + 1)
        omega
      have := ih (n / 10) (Nat.div_lt_of_lt_mul hlt)
      omega

/-! ## Field formats -/

theorem padZeros_length (d : ℕ) (l : List Char) (h : l.length ≤ d) :
    (padZeros d l).length = d := by
  unfold padZeros
  simp [List.length_replicate]
  omega

theorem mem_padZeros_isDigit (d : ℕ) (l : List Char)
    (h : ∀ c ∈ l, c.isDigit = true) :
    ∀ c ∈ padZeros d l, c.isDigit = true := by
  intro c hc
  unfold padZeros at hc
  rcases List.mem_append.mp hc with hc | hc
  · have := List.eq_of_mem_replicate hc
    subst this; decide
  · exact h c hc

/-- The numeric branch of `fmtFVal` always prints a fixed-point numeral
with exactly `d` decimals. -/
theorem fmtFVal_fixedPoint (q : ℚ) (d : ℕ) :
    FixedPointStr d (fmtFVal (.val q) d).data := by
  unfold fmtFVal
  set m : ℕ := (scaledRound q d).natAbs with hm
  by_cases hd : d = 0
  · subst hd
    refine ⟨if scaledRound q 0 < 0 then ['-'] else [],
      natDigits (m / 10 ^ 0), [], ?_, natDigits_ne_nil _,
      mem_natDigits_isDigit _, rfl, by simp, ?_⟩
    · by_cases hs : scaledRound q 0 < 0 <;> simp [hs]
    · simp
  · refine ⟨if scaledRound q d < 0 then ['-'] else [],
      natDigits (m / 10 ^ d), padZeros d (natDigits (m % 10 ^ d)),
      ?_, natDigits_ne_nil _, mem_natDigits_isDigit _, ?_,
      mem_padZeros_isDigit _ _ (mem_natDigits_isDigit _), ?_⟩
    · by_cases hs : scaledRound q d < 0 <;> simp [hs]
    · rcases Nat.exists_eq_add_of_le (Nat.one_le_iff_ne_zero.mpr hd) with ⟨e, he⟩
      subst he
      refine padZeros_length _ _ ?_
      have hlt : m % 10 ^ (1 + e) < 10 ^ (e + 1) := by
        rw [Nat.add_comm 1 e]
        exact Nat.mod_lt _ (Nat.pos_pow_of_pos _ (by norm_num))
      simpa [Nat.add_comm 1 e] using natDigits_length_le e _ hlt
    · simp [hd]

theorem isDigit_ne_tab (c : Char) (h : c.isDigit = true) : c ≠ '\t' := by
  intro hc
  subst hc
  exact absurd h (by decide)

theorem fmtFVal_no_tab (v : FVal) (d : ℕ) : '\t' ∉ (fmtFVal v d).data := by
  match v with
  | .nan => simp [fmtFVal]
  | .val q =>
    intro hmem
    rcases fmtFVal_fixedPoint q d with
      ⟨sign, ip, fp, hsign, _, hip, _, hfp, heq⟩
    rw [heq] at hmem
    rcases List.mem_append.mp hmem with h | h
    · rcases List.mem_append.mp h with h | h
      · rcases hsign with hs | hs <;> subst hs <;> simp at h
      · exact isDigit_ne_tab _ (hip _ h) rfl
    · by_cases hd : d = 0
      · simp [hd] at h
      · simp only [hd, if_false, List.mem_cons] at h
        rcases h with h | h
        · exact absurd h.symm (by decide)
        · exact isDigit_ne_tab _ (hfp _ h) rfl

theorem natDigits_no_tab (n : ℕ) : '\t' ∉ natDigits n := by
  intro h
  exact isDigit_ne_tab _ (mem_natDigits_isDigit n _ h) rfl

/-! ## splitTabs lemmas -/

theorem splitTabs_cons (c : Char) (rest : List Char) :
    splitTabs (c :: rest) =
      match splitTabs rest with
      | [] => [[c]]
      | f :: fs => if c = '\t' then [] :: f :: fs else (c :: f) :: fs := rfl

theorem splitTabs_ne_nil (l : List Char) : splitTabs l ≠ [] := by
  match l with
  | [] => simp [splitTabs]
  | c :: rest =>
    rw [splitTabs_cons]
    match h : splitTabs rest with
    | [] => simp
    | f :: fs => by_cases hc : c = '\t' <;> simp [hc]

theorem splitTabs_no_tab (l : List Char) (h : '\t' ∉ l) :
    splitTabs l = [l] := by
  induction l with
  | nil => rfl
  | cons c rest ih =>
    have hc : c ≠ '\t' := fun hc => h (hc ▸ List.mem_cons_self c rest)
    have hrest : '\t' ∉ rest := fun hr => h (List.mem_cons_of_mem c hr)
    rw [splitTabs_cons, ih hrest]
    simp [hc]

theorem splitTabs_append (a b : List Char) (h : '\t' ∉ a) :
    splitTabs (a ++ '\t' :: b) = a :: splitTabs b := by
  induction a with
  | nil =>
    show splitTabs ('\t' :: b) = [] :: splitTabs b
    rw [splitTabs_cons]
    match hb : splitTabs b with
    | [] => exact absurd hb (splitTabs_ne_nil b)
    | f :: fs => simp
  | cons c rest ih =>
    have hc : c ≠ '\t' := fun hc => h (hc ▸ List.mem_cons_self c rest)
    have hrest : '\t' ∉ rest := fun hr => h (List.mem_cons_of_mem c hr)
    show splitTabs (c :: (rest ++ '\t' :: b)) = (c :: rest) :: splitTabs b
    rw [splitTabs_cons, ih hrest]
    simp [hc]

/-- The response line decomposed at the character level. -/
theorem mkLine_data (now : ℕ) (p t h pr : FVal) :
    (mkLine now p t h pr).data =
      natDigits now ++ '\t' :: ((fmtFVal p 1).data ++ '\t' ::
        ((fmtFVal t 1).data ++ '\t' :: ((fmtFVal h 1).data ++ '\t' ::
          (fmtFVal pr 0).data))) := by
  unfold mkLine
  simp only [String.data_append]
  have : natStr now = ⟨natDigits now⟩ := rfl
  simp [this]

/-- The response line has exactly the five documented tab-separated
fields. -/
theorem splitTabs_mkLine (now : ℕ) (p t h pr : FVal) :
    splitTabs (mkLine now p t h pr).data =
      [natDigits now, (fmtFVal p 1).data, (fmtFVal t 1).data,
       (fmtFVal h 1).data, (fmtFVal pr 0).data] := by
  rw [mkLine_data,
    splitTabs_append _ _ (natDigits_no_tab now),
    splitTabs_append _ _ (fmtFVal_no_tab p 1),
    splitTabs_append _ _ (fmtFVal_no_tab t 1),
    splitTabs_append _ _ (fmtFVal_no_tab h 1),
    splitTabs_no_tab _ (fmtFVal_no_tab pr 0)]

/-! ## Handler shapes -/

theorem handleCmd_id (env : Env) (st : MCUState) :
    handleCmd env st "id?" = (st, idEvents) := rfl

theorem handleCmd_read (env : Env) (st : MCUState) (cmd : String)
    (hcmd : cmd ≠ "id?") :
    handleCmd env st cmd = (readState env st, readEvents env st) := by
  unfold handleCmd
  rw [if_neg hcmd]
  rfl

/-! ## LED state lemmas -/

theorem ledAfter_append (c : ℕ × ℕ × ℕ) (a b : List Event) :
    ledAfter c (a ++ b) = ledAfter (ledAfter c a) b := by
  induction a generalizing c with
  | nil => rfl
  | cons e rest ih => cases e <;> simp [ledAfter, ih]

theorem ledAfter_no_show (l : List Event)
    (h : ∀ r g b, Event.ledShow r g b ∉ l) (c : ℕ × ℕ × ℕ) :
    ledAfter c l = c := by
  induction l with
  | nil => rfl
  | cons e rest ih =>
    have hrest : ∀ r g b, Event.ledShow r g b ∉ rest := fun r g b hm =>
      h r g b (List.mem_cons_of_mem e hm)
    cases e with
    | ledShow r g b => exact absurd (List.mem_cons_self _ _) (h r g b)
    | _ => simp [ledAfter, ih hrest]

/-- LED state at every point of a "show, work, show" window: the color
written at position 0 persists until the closing write. -/
theorem ledAfter_window (c0 : ℕ × ℕ × ℕ) (r1 g1 b1 r2 g2 b2 : ℕ)
    (mids : List Event) (hm : ∀ r g b, Event.ledShow r g b ∉ mids) (k : ℕ)
    (hk : k ≤ mids.length + 2) :
    ledAfter c0
      ((Event.ledShow r1 g1 b1 ::
        (mids ++ [Event.ledShow r2 g2 b2])).take k) =
      if k = 0 then c0
      else if k = mids.length + 2 then (r2, g2, b2) else (r1, g1, b1) := by
  match k with
  | 0 => simp [ledAfter]
  | j + 1 =>
    rw [List.take_succ_cons]
    show ledAfter (r1, g1, b1)
      ((mids ++ [Event.ledShow r2 g2 b2]).take j) = _
    by_cases hj : j ≤ mids.length
    · rw [List.take_append_of_le_length hj]
      have hsub : ∀ r g b, Event.ledShow r g b ∉ mids.take j :=
        fun r g b hmem => hm r g b (List.take_subset j mids hmem)
      rw [ledAfter_no_show _ hsub]
      have h1 : j + 1 ≠ 0 := by omega
      have h2 : j + 1 ≠ mids.length + 2 := by omega
      simp [h1, h2]
    · have hj2 : j = mids.length + 1 := by omega
      subst hj2
      rw [List.take_of_length_le (by simp)]
      rw [ledAfter_append, ledAfter_no_show _ hm]
      simp [ledAfter]

/-! ## Trace observer lemmas -/

theorem linesOf_append (a b : List Event) :
    linesOf (a ++ b) = linesOf a ++ linesOf b :=
  List.filterMap_append a b _

theorem sensorReads_append (a b : List Event) :
    sensorReads (a ++ b) = sensorReads a ++ sensorReads b := by
  unfold sensorReads
  rw [List.filter_append]

theorem respLines_append (a b : List Event) :
    respLines (a ++ b) = respLines a ++ respLines b := by
  unfold respLines
  rw [linesOf_append, List.filter_append]

theorem respTimestamps_append (a b : List Event) :
    respTimestamps (a ++ b) = respTimestamps a ++ respTimestamps b := by
  unfold respTimestamps
  rw [respLines_append, List.map_append]

theorem linesOf_idEvents : linesOf idEvents = [idString] := rfl

theorem linesOf_readEvents (env : Env) (st : MCUState) :
    linesOf (readEvents env st) = [reqLine env st] := rfl

theorem reqLine_fields (env : Env) (st : MCUState) :
    splitTabs (reqLine env st).data =
      [natDigits (env.millis st.millisCount),
       (fmtFVal (env.ds18Vals st.ds18Count) 1).data,
       (fmtFVal (env.bmeTempVals st.bmeTempCount) 1).data,
       (fmtFVal (env.bmeHumiVals st.bmeHumiCount) 1).data,
       (fmtFVal (env.bmePresVals st.bmePresCount) 0).data] :=
  splitTabs_mkLine _ _ _ _ _

theorem idString_fields : (splitTabs idString.data).length = 1 := by decide

theorem respLines_idEvents : respLines idEvents = [] := by
  unfold respLines
  rw [linesOf_idEvents]
  simp [List.filter]
  decide

theorem respLines_readEvents (env : Env) (st : MCUState) :
    respLines (readEvents env st) = [reqLine env st] := by
  unfold respLines
  rw [linesOf_readEvents]
  have h5 : (splitTabs (reqLine env st).data).length = 5 := by
    rw [reqLine_fields]; rfl
  simp [List.filter, h5]

theorem respTimestamps_idEvents : respTimestamps idEvents = [] := by
  unfold respTimestamps
  rw [respLines_idEvents]
  rfl

theorem respTimestamps_readEvents (env : Env) (st : MCUState) :
    respTimestamps (readEvents env st) = [env.millis st.millisCount] := by
  unfold respTimestamps
  rw [respLines_readEvents]
  simp [reqLine_fields, List.headI, digitsToNat_natDigits]

/-! ## Loop lemmas -/

theorem runLoop_cons (env : Env) (st : MCUState) (p : Option String)
    (ps : List (Option String)) :
    runLoop env st (p :: ps) =
      ((runLoop env (loopIter env st p).1 ps).1,
       (loopIter env st p).2 ++ (runLoop env (loopIter env st p).1 ps).2) :=
  rfl

theorem loopIter_counters (env : Env) (st : MCUState) (p : Option String) :
    st.millisCount ≤ (loopIter env st p).1.millisCount ∧
    st.ds18Count ≤ (loopIter env st p).1.ds18Count ∧
    st.bmeTempCount ≤ (loopIter env st p).1.bmeTempCount ∧
    st.bmeHumiCount ≤ (loopIter env st p).1.bmeHumiCount ∧
    st.bmePresCount ≤ (loopIter env st p).1.bmePresCount := by
  match p with
  | none => simp [loopIter]
  | some cmd =>
    by_cases hcmd : cmd = "id?"
    · subst hcmd
      simp [loopIter, handleCmd_id]
    · simp [loopIter, handleCmd_read env st cmd hcmd, readState]

/-- Every serial line a run of `loop` writes is either the
identification string or a response line formatted from oracle values at
call indices at least the current counters. -/
theorem linesOf_runLoop (env : Env) :
    ∀ (ps : List (Option String)) (st : MCUState) (s : String),
      s ∈ linesOf (runLoop env st ps).2 →
      s = idString ∨
      ∃ m i1 i2 i3 i4,
        st.millisCount ≤ m ∧ st.ds18Count ≤ i1 ∧ st.bmeTempCount ≤ i2 ∧
        st.bmeHumiCount ≤ i3 ∧ st.bmePresCount ≤ i4 ∧
        s = mkLine (env.millis m) (env.ds18Vals i1) (env.bmeTempVals i2)
          (env.bmeHumiVals i3) (env.bmePresVals i4) := by
  intro ps
  induction ps with
  | nil => intro st s hs; simp [runLoop, linesOf] at hs
  | cons p rest ih =>
    intro st s hs
    rw [runLoop_cons] at hs
    rw [linesOf_append, List.mem_append] at hs
    rcases hs with hs | hs
    · match p with
      | none => simp [loopIter, linesOf] at hs
      | some cmd =>
        by_cases hcmd : cmd = "id?"
        · subst hcmd
          rw [loopIter, handleCmd_id, linesOf_idEvents] at hs
          simp at hs
          exact Or.inl hs
        · rw [loopIter, handleCmd_read env st cmd hcmd,
            linesOf_readEvents] at hs
          simp at hs
          subst hs
          exact Or.inr ⟨st.millisCount, st.ds18Count, st.bmeTempCount,
            st.bmeHumiCount, st.bmePresCount, le_refl _, le_refl _,
            le_refl _, le_refl _, le_refl _, rfl⟩
    · rcases ih (loopIter env st p).1 s hs with h | h
      · exact Or.inl h
      · rcases h with ⟨m, i1, i2, i3, i4, hm, h1, h2, h3, h4, hline⟩
        have hc := loopIter_counters env st p
        exact Or.inr ⟨m, i1, i2, i3, i4, by omega, by omega, by omega,
          by omega, by omega, hline⟩

/-! ## Timestamp lemmas -/

theorem respLines_sub_linesOf (evs : List Event) :
    ∀ s ∈ respLines evs, s ∈ linesOf evs := by
  intro s hs
  exact List.mem_of_mem_filter hs

theorem mem_respLines_fields (evs : List Event) (s : String)
    (hs : s ∈ respLines evs) : (splitTabs s.data).length = 5 := by
  unfold respLines at hs
  have := List.of_mem_filter hs
  simpa using this

/-- Every parsed timestamp in a run's responses is a `millis()` value
taken at or after the run's initial call counter. -/
theorem respTimestamps_lower (env : Env) (ps : List (Option String))
    (st : MCUState) (t : ℕ)
    (ht : t ∈ respTimestamps (runLoop env st ps).2) :
    ∃ m, st.millisCount ≤ m ∧ t = env.millis m := by
  unfold respTimestamps at ht
  rcases List.mem_map.mp ht with ⟨s, hs, hparse⟩
  have h5 := mem_respLines_fields _ s hs
  have hlin := respLines_sub_linesOf _ s hs
  rcases linesOf_runLoop env ps st s hlin with h | h
  · rw [h] at h5
    rw [idString_fields] at h5
    omega
  · rcases h with ⟨m, i1, i2, i3, i4, hm, _, _, _, _, hline⟩
    refine ⟨m, hm, ?_⟩
    rw [hline] at hparse
    rw [splitTabs_mkLine] at hparse
    simp [List.headI, digitsToNat_natDigits] at hparse
    omega

/-- The parsed timestamps of the responses of a run are non-decreasing
when the clock oracle is. -/
theorem respTimestamps_chain (env : Env)
    (hmono : ∀ i j, i ≤ j → env.millis i ≤ env.millis j) :
    ∀ (ps : List (Option String)) (st : MCUState),
      List.Chain' (· ≤ ·) (respTimestamps (runLoop env st ps).2) := by
  intro ps
  induction ps with
  | nil => intro st; simp [runLoop, respTimestamps, respLines, linesOf]
  | cons p rest ih =>
    intro st
    rw [runLoop_cons, respTimestamps_append]
    match p with
    | none =>
      show List.Chain' _ (respTimestamps [] ++ _)
      simpa [respTimestamps, respLines, linesOf] using ih st
    | some cmd =>
      by_cases hcmd : cmd = "id?"
      · subst hcmd
        rw [loopIter, handleCmd_id, respTimestamps_idEvents]
        simpa using ih st
      · rw [loopIter, handleCmd_read env st cmd hcmd,
          respTimestamps_readEvents]
        rw [List.singleton_append]
        rw [List.chain'_cons']
        refine ⟨?_, ih (readState env st)⟩
        intro t ht
        have htm : t ∈ respTimestamps
            (runLoop env (readState env st) rest).2 :=
          List.mem_of_mem_head? ht
        rcases respTimestamps_lower env rest (readState env st) t htm with
          ⟨m, hm, hval⟩
        have : st.millisCount ≤ m := by
          simp [readState] at hm
          omega
        rw [hval]
        exact hmono _ _ this

/-! ## Setup lemmas -/

theorem bmeBeginLoop_spec (env : Env) :
    ∀ (N i : ℕ), (∀ j < N, env.bmeBeginOk (i + j) = false) →
      env.bmeBeginOk (i + N) = true →
      bmeBeginLoop env (N + 1) i =
        some (i + N,
          (List.replicate N
            [Event.serialLine bmeDiag, Event.delayMs 1000]).flatten) := by
  intro N
  induction N with
  | zero =>
    intro i _ hok
    simp at hok
    simp [bmeBeginLoop, hok]
  | succ N ih =>
    intro i hfail hok
    have h0 : env.bmeBeginOk i = false := by
      have := hfail 0 (by omega)
      simpa using this
    show bmeBeginLoop env (N + 1 + 1) i = _
    rw [bmeBeginLoop]
    rw [h0]
    have hfail' : ∀ j < N, env.bmeBeginOk (i + 1 + j) = false := by
      intro j hj
      have := hfail (j + 1) (by omega)
      rw [show i + 1 + j = i + (j + 1) by omega]
      exact this
    have hok' : env.bmeBeginOk (i + 1 + N) = true := by
      rw [show i + 1 + N = i + (N + 1) by omega]
      exact hok
    rw [ih (i + 1) hfail' hok']
    simp [List.replicate_succ]
    omega

theorem bmeBeginLoop_none (env : Env) :
    ∀ (fuel i : ℕ), (∀ j < fuel, env.bmeBeginOk (i + j) = false) →
      bmeBeginLoop env fuel i = none := by
  intro fuel
  induction fuel with
  | zero => intro i _; rfl
  | succ fuel ih =>
    intro i hfail
    have h0 : env.bmeBeginOk i = false := by
      have := hfail 0 (by omega)
      simpa using this
    rw [bmeBeginLoop, h0]
    have hfail' : ∀ j < fuel, env.bmeBeginOk (i + 1 + j) = false := by
      intro j hj
      have := hfail (j + 1) (by omega)
      rw [show i + 1 + j = i + (j + 1) by omega]
      exact this
    rw [ih (i + 1) hfail']
    rfl

/-- A completed `setup()` with `N` initial `bme.begin` failures. -/
theorem setupRun_spec (env : Env) (N : ℕ)
    (hfail : ∀ i < N, env.bmeBeginOk i = false)
    (hok : env.bmeBeginOk N = true) :
    setupRun env (N + 1) = some (warmState, setupTrace N) := by
  unfold setupRun
  have hfail' : ∀ j < N, env.bmeBeginOk (0 + j) = false := by
    intro j hj
    simpa using hfail j hj
  have hok' : env.bmeBeginOk (0 + N) = true := by simpa using hok
  rw [bmeBeginLoop_spec env N 0 hfail' hok']
  rfl

theorem setupRun_none (env : Env) (N fuel : ℕ)
    (hfail : ∀ i < N, env.bmeBeginOk i = false) (hfuel : fuel ≤ N) :
    setupRun env fuel = none := by
  unfold setupRun
  have hfail' : ∀ j < fuel, env.bmeBeginOk (0 + j) = false := by
    intro j hj
    simpa using hfail j (by omega)
  rw [bmeBeginLoop_none env fuel 0 hfail']

theorem linesOf_diag_flatten (N : ℕ) :
    linesOf ((List.replicate N
      [Event.serialLine bmeDiag, Event.delayMs 1000]).flatten) =
      List.replicate N bmeDiag := by
  induction N with
  | zero => rfl
  | succ N ih =>
    rw [List.replicate_succ, List.flatten_cons, linesOf_append, ih]
    rfl

theorem delaysOf_diag_flatten (N : ℕ) :
    delaysOf ((List.replicate N
      [Event.serialLine bmeDiag, Event.delayMs 1000]).flatten) =
      List.replicate N (Event.delayMs 1000) := by
  induction N with
  | zero => rfl
  | succ N ih =>
    unfold delaysOf at ih ⊢
    rw [List.replicate_succ, List.flatten_cons, List.filter_append, ih]
    rfl

theorem linesOf_setupTrace (N : ℕ) :
    linesOf (setupTrace N) = List.replicate N bmeDiag := by
  unfold setupTrace
  show linesOf ((Event.ledShow 0 0 NEO_BRIGHT :: Event.serialBegin 9600 ::
    Event.ds18Begin :: []) ++
    ((List.replicate N
      [Event.serialLine bmeDiag, Event.delayMs 1000]).flatten ++
    [Event.bmeReadTemp, Event.bmeReadHumi, Event.bmeReadPres,
     Event.ledShow 0 NEO_DIM 0])) = _
  rw [linesOf_append, linesOf_append, linesOf_diag_flatten]
  simp [linesOf, List.filterMap]

theorem delaysOf_setupTrace (N : ℕ) :
    delaysOf (setupTrace N) = List.replicate N (Event.delayMs 1000) := by
  unfold setupTrace
  show delaysOf ((Event.ledShow 0 0 NEO_BRIGHT :: Event.serialBegin 9600 ::
    Event.ds18Begin :: []) ++
    ((List.replicate N
      [Event.serialLine bmeDiag, Event.delayMs 1000]).flatten ++
    [Event.bmeReadTemp, Event.bmeReadHumi, Event.bmeReadPres,
     Event.ledShow 0 NEO_DIM 0])) = _
  unfold delaysOf
  rw [List.filter_append, List.filter_append]
  have h := delaysOf_diag_flatten N
  unfold delaysOf at h
  rw [h]
  simp [List.filter]

/-! ## Window shapes -/

theorem sensorReads_diag_flatten (N : ℕ) :
    sensorReads ((List.replicate N
      [Event.serialLine bmeDiag, Event.delayMs 1000]).flatten) = [] := by
  induction N with
  | zero => rfl
  | succ N ih =>
    rw [List.replicate_succ, List.flatten_cons, sensorReads_append, ih]
    rfl

theorem sensorReads_setupTrace (N : ℕ) :
    sensorReads (setupTrace N) =
      [Event.bmeReadTemp, Event.bmeReadHumi, Event.bmeReadPres] := by
  unfold setupTrace
  show sensorReads ((Event.ledShow 0 0 NEO_BRIGHT :: Event.serialBegin 9600 ::
    Event.ds18Begin :: []) ++
    ((List.replicate N
      [Event.serialLine bmeDiag, Event.delayMs 1000]).flatten ++
    [Event.bmeReadTemp, Event.bmeReadHumi, Event.bmeReadPres,
     Event.ledShow 0 NEO_DIM 0])) = _
  rw [sensorReads_append, sensorReads_append, sensorReads_diag_flatten]
  rfl

theorem noShow_diag_flatten (N : ℕ) : ∀ r g b,
    Event.ledShow r g b ∉ (List.replicate N
      [Event.serialLine bmeDiag, Event.delayMs 1000]).flatten := by
  intro r g b hmem
  rcases List.mem_flatten.mp hmem with ⟨l, hl, hel⟩
  have := List.eq_of_mem_replicate hl
  subst this
  simp at hel

theorem setupTrace_shape (N : ℕ) :
    setupTrace N = Event.ledShow 0 0 NEO_BRIGHT ::
      ((Event.serialBegin 9600 :: Event.ds18Begin ::
        ((List.replicate N
          [Event.serialLine bmeDiag, Event.delayMs 1000]).flatten ++
         [Event.bmeReadTemp, Event.bmeReadHumi, Event.bmeReadPres])) ++
       [Event.ledShow 0 NEO_DIM 0]) := by
  unfold setupTrace
  simp

theorem noShow_setupMids (N : ℕ) : ∀ r g b,
    Event.ledShow r g b ∉ (Event.serialBegin 9600 :: Event.ds18Begin ::
      ((List.replicate N
        [Event.serialLine bmeDiag, Event.delayMs 1000]).flatten ++
       [Event.bmeReadTemp, Event.bmeReadHumi, Event.bmeReadPres])) := by
  intro r g b hmem
  rcases List.mem_cons.mp hmem with heq | hmem
  · simp at heq
  rcases List.mem_cons.mp hmem with heq | hmem
  · simp at heq
  rcases List.mem_append.mp hmem with h | h
  · exact noShow_diag_flatten N r g b h
  · simp at h

theorem ledAfter_handleCmd (c : ℕ × ℕ × ℕ) (env : Env) (st : MCUState)
    (cmd : String) : ledAfter c (handleCmd env st cmd).2 = idleColor := by
  by_cases hcmd : cmd = "id?"
  · subst hcmd
    rw [handleCmd_id]
    rfl
  · rw [handleCmd_read env st cmd hcmd]
    rfl

theorem ledAfter_runLoop (env : Env) :
    ∀ (ps : List (Option String)) (st : MCUState),
      ledAfter idleColor (runLoop env st ps).2 = idleColor := by
  intro ps
  induction ps with
  | nil => intro st; rfl
  | cons p rest ih =>
    intro st
    rw [runLoop_cons, ledAfter_append]
    match p with
    | none => exact ih st
    | some cmd =>
      rw [show (loopIter env st (some cmd)) = handleCmd env st cmd from rfl,
        ledAfter_handleCmd]
      exact ih _

theorem handleCmd_window (env : Env) (st : MCUState) (cmd : String) (k : ℕ)
    (hk : k ≤ ((handleCmd env st cmd).2).length) :
    ledAfter idleColor (((handleCmd env st cmd).2).take k) =
      if k = 0 ∨ k = ((handleCmd env st cmd).2).length then idleColor
      else samplingColor := by
  by_cases hcmd : cmd = "id?"
  · subst hcmd
    rw [handleCmd_id] at hk ⊢
    have hshape : idEvents = Event.ledShow 0 NEO_BRIGHT 0 ::
        ([Event.serialLine idString] ++ [Event.ledShow 0 NEO_DIM 0]) := rfl
    rw [hshape]
    have hm : ∀ r g b, Event.ledShow r g b ∉ [Event.serialLine idString] := by
      intro r g b h; simp at h
    have := ledAfter_window idleColor 0 NEO_BRIGHT 0 0 NEO_DIM 0
      [Event.serialLine idString] hm k (by simpa [idEvents] using hk)
    rw [this]
    have hlen : idEvents.length = 3 := rfl
    by_cases h0 : k = 0
    · simp [h0]
    · by_cases h3 : k = 3
      · subst h3; simp [idleColor]
      · have : k ≠ ([Event.serialLine idString] : List Event).length + 2 := by
          simp; omega
        simp [h0, h3, this, samplingColor]
  · rw [handleCmd_read env st cmd hcmd] at hk ⊢
    have hshape : readEvents env st = Event.ledShow 0 NEO_BRIGHT 0 ::
        ([Event.ds18Request, Event.ds18Read, Event.bmeReadTemp,
          Event.bmeReadHumi, Event.bmeReadPres,
          Event.serialLine (reqLine env st)] ++
         [Event.ledShow 0 NEO_DIM 0]) := rfl
    rw [hshape]
    have hm : ∀ r g b, Event.ledShow r g b ∉
        [Event.ds18Request, Event.ds18Read, Event.bmeReadTemp,
         Event.bmeReadHumi, Event.bmeReadPres,
         Event.serialLine (reqLine env st)] := by
      intro r g b h; simp at h
    have := ledAfter_window idleColor 0 NEO_BRIGHT 0 0 NEO_DIM 0
      [Event.ds18Request, Event.ds18Read, Event.bmeReadTemp,
       Event.bmeReadHumi, Event.bmeReadPres,
       Event.serialLine (reqLine env st)] hm k
      (by simpa [readEvents] using hk)
    rw [this]
    have hlen : (readEvents env st).length = 8 := rfl
    by_cases h0 : k = 0
    · simp [h0]
    · by_cases h8 : k = 8
      · subst h8; simp [idleColor]
      · have : k ≠ ([Event.ds18Request, Event.ds18Read, Event.bmeReadTemp,
          Event.bmeReadHumi, Event.bmeReadPres,
          Event.serialLine (reqLine env st)] : List Event).length + 2 := by
          simp; omega
        simp [h0, h8, this, samplingColor]

/-- The LED shows the Initializing blue at every point strictly inside
`setup()`. -/
theorem setup_window (N k : ℕ) (h1 : 1 ≤ k)
    (hlen : k < (setupTrace N).length) :
    ledAfter (0, 0, 0) ((setupTrace N).take k) = initColor := by
  have hlen' : k < (Event.serialBegin 9600 :: Event.ds18Begin ::
      ((List.replicate N
        [Event.serialLine bmeDiag, Event.delayMs 1000]).flatten ++
       [Event.bmeReadTemp, Event.bmeReadHumi,
        Event.bmeReadPres])).length + 2 := by
    rw [setupTrace_shape] at hlen
    simp only [List.length_cons, List.length_append, List.length_nil]
      at hlen ⊢
    omega
  rw [setupTrace_shape]
  rw [ledAfter_window (0, 0, 0) 0 0 NEO_BRIGHT 0 NEO_DIM 0 _
    (noShow_setupMids N) k (by omega)]
  rw [if_neg (by omega), if_neg (by omega)]
  rfl

/-- Shared helper: a run of `loop` whose polls yield only `id?` commands
(or nothing) leaves the whole firmware state unchanged. -/
theorem runLoop_id_only (env : Env) :
    ∀ (polls : List (Option String)) (st : MCUState),
      (∀ p ∈ polls, p = none ∨ p = some "id?") →
      (runLoop env st polls).1 = st := by
  intro polls
  induction polls with
  | nil => intro st _; rfl
  | cons p rest ih =>
    intro st hid
    rw [runLoop_cons]
    have hstep : (loopIter env st p).1 = st := by
      rcases hid p (List.mem_cons_self p rest) with h | h
      · subst h; rfl
      · subst h
        show (handleCmd env st "id?").1 = st
        rw [handleCmd_id]
    rw [hstep]
    exact ih st (fun q hq => hid q (List.mem_cons_of_mem p hq))

/-! ## The claims -/

/-- Claim C1: for every received command string not equal to `id?`, the
orchestrator invokes each of the four sensor-read operations exactly
once, in the order probe temperature, environment temperature, humidity,
pressure, and writes exactly one response line of five tab-separated
fields: timestamp (unsigned integer numeral), probe temperature with 1
decimal, environment temperature with 1 decimal, humidity with 1
decimal, pressure with 0 decimals. -/
theorem claim_C1 (env : Env) (st : MCUState) (cmd : String)
    (hcmd : cmd ≠ "id?") : ReadRequestSpec env st cmd := by
  unfold ReadRequestSpec
  rw [handleCmd_read env st cmd hcmd]
  refine ⟨rfl, rfl, rfl, rfl, reqLine_fields env st,
    mem_natDigits_isDigit _, ?_, ?_, ?_, ?_, ?_⟩
  · intro q hq; rw [hq]; exact fmtFVal_fixedPoint q 1
  · intro hq; rw [hq]; rfl
  · intro q hq; rw [hq]; exact fmtFVal_fixedPoint q 1
  · intro q hq; rw [hq]; exact fmtFVal_fixedPoint q 1
  · intro q hq; rw [hq]; exact fmtFVal_fixedPoint q 0

theorem claim_C1_witness :
    ("meas" ≠ "id?") ∧ ReadRequestSpec envW initState "meas" :=
  ⟨by decide, claim_C1 envW initState "meas" (by decide)⟩

/-- Claim C2: for every received command string exactly equal to `id?`,
the orchestrator writes exactly the literal line
`Arduino, Dodecahedron logger` and performs zero sensor-read operations
during that request. -/
theorem claim_C2 (env : Env) (st : MCUState) :
    handleCmd env st "id?" = (st, idEvents) ∧
    linesOf (handleCmd env st "id?").2 = [idString] ∧
    sensorReads (handleCmd env st "id?").2 = [] := by
  refine ⟨handleCmd_id env st, ?_, ?_⟩ <;> (rw [handleCmd_id]; rfl)

/-- Claim C3: for every "read sensors" request, the response line is
emitted only after all four reading variables have been re-read in that
same request, in order probe temperature, environment temperature,
humidity, pressure; the line is formatted from exactly the four freshly
stored values, so no partially updated snapshot is ever exposed. -/
theorem claim_C3 (env : Env) (st : MCUState) (cmd : String)
    (hcmd : cmd ≠ "id?") : SnapshotSpec env st cmd := by
  unfold SnapshotSpec
  rw [handleCmd_read env st cmd hcmd]
  exact ⟨[Event.ledShow 0 NEO_BRIGHT 0, Event.ds18Request, Event.ds18Read,
    Event.bmeReadTemp, Event.bmeReadHumi, Event.bmeReadPres],
    [Event.ledShow 0 NEO_DIM 0], rfl, rfl, rfl, rfl, rfl⟩

theorem claim_C3_witness :
    ("xyz" ≠ "id?") ∧ SnapshotSpec envW initState "xyz" :=
  ⟨by decide, claim_C3 envW initState "xyz" (by decide)⟩

/-- Claim C4: if the I2C driver fails `N` times before succeeding,
exactly `N` diagnostic lines
`Could not find a valid BME280 sensor, check wiring!` are emitted with
exactly one 1000 ms delay per failure, and initialization proceeds past
the retry loop only once the driver succeeds. -/
theorem claim_C4 (env : Env) (N : ℕ)
    (hfail : ∀ i < N, env.bmeBeginOk i = false)
    (hok : env.bmeBeginOk N = true) : InitRetrySpec env N :=
  ⟨setupRun_spec env N hfail hok, linesOf_setupTrace N,
   delaysOf_setupTrace N, fun fuel hfuel =>
     setupRun_none env N fuel hfail hfuel⟩

theorem claim_C4_witness :
    (∀ i < 2, envW.bmeBeginOk i = false) ∧ envW.bmeBeginOk 2 = true ∧
    InitRetrySpec envW 2 :=
  ⟨by decide, by decide, claim_C4 envW 2 (by decide) (by decide)⟩

/-- Claim C5 counterexample: the indicator still shows the Sampling
color at the point immediately after the response emission (just before
the Idle restore), so it is not Sampling *only* strictly between
receipt and emission. -/
theorem claim_C5_counterexample : ¬ C5Stated := by
  intro h
  have := (h envW initState "v?" 7 (by decide) (by decide)).2
  exact absurd this (by decide)

/-- Claim C5 (amended): the status indicator is Sampling exactly at the
points strictly inside a command-handling window — from the bright
flash at command receipt up to, but not including, the Idle restore
that is the next action after the response emission; it is Idle at the
end of `setup()` and at every loop-iteration boundary, and Initializing
at every point strictly inside `setup()`. -/
theorem claim_C5 (env : Env) (N : ℕ)
    (hfail : ∀ i < N, env.bmeBeginOk i = false)
    (hok : env.bmeBeginOk N = true) : LedWindowSpec env N := by
  refine ⟨setupRun_spec env N hfail hok,
    fun k h1 hlen => setup_window N k h1 hlen, ?_,
    fun st polls => ledAfter_runLoop env polls st,
    fun st cmd k hk => handleCmd_window env st cmd k hk, ?_⟩
  · rw [setupTrace_shape]
    show ledAfter (0, 0, NEO_BRIGHT)
      ((Event.serialBegin 9600 :: Event.ds18Begin ::
        ((List.replicate N
          [Event.serialLine bmeDiag, Event.delayMs 1000]).flatten ++
         [Event.bmeReadTemp, Event.bmeReadHumi, Event.bmeReadPres])) ++
       [Event.ledShow 0 NEO_DIM 0]) = idleColor
    rw [ledAfter_append, ledAfter_no_show _ (noShow_setupMids N)]
    rfl
  · intro st cmd
    by_cases hcmd : cmd = "id?"
    · subst hcmd
      rw [handleCmd_id]
      exact ⟨[Event.ledShow 0 NEO_BRIGHT 0], idString, rfl, by simp⟩
    · rw [handleCmd_read env st cmd hcmd]
      exact ⟨[Event.ledShow 0 NEO_BRIGHT 0, Event.ds18Request,
        Event.ds18Read, Event.bmeReadTemp, Event.bmeReadHumi,
        Event.bmeReadPres], reqLine env st, rfl, by simp⟩

theorem claim_C5_witness :
    (∀ i < 2, envW.bmeBeginOk i = false) ∧ envW.bmeBeginOk 2 = true ∧
    LedWindowSpec envW 2 :=
  ⟨by decide, by decide, claim_C5 envW 2 (by decide) (by decide)⟩

/-- Claim C6 counterexample: at startup the indicator is set to blue at
`NEO_BRIGHT` (8), not at the low `NEO_DIM` (3) level used for the Idle
green, so the claim's "blue at low brightness" is false on the code. -/
theorem claim_C6_counterexample : ¬ C6Stated := by
  intro h
  rcases h envN 0 (fun i hi => absurd hi (by omega)) rfl with
    ⟨st0, tr, hrun, hhead⟩
  rw [setupRun_spec envN 0 (fun i hi => absurd hi (by omega)) rfl] at hrun
  cases hrun
  exact absurd hhead (by decide)

/-- Claim C6 (amended): while Initializing, the status indicator is set
to blue at the high brightness `NEO_BRIGHT` — the same level used for
the Sampling green flash — and the low-brightness blue of the claim is
never shown. -/
theorem claim_C6 (env : Env) (N : ℕ)
    (hfail : ∀ i < N, env.bmeBeginOk i = false)
    (hok : env.bmeBeginOk N = true) : InitColorSpec env N := by
  refine ⟨setupRun_spec env N hfail hok, ?_, ?_, ?_, by decide⟩
  · rw [setupTrace_shape]; rfl
  · intro st cmd
    by_cases hcmd : cmd = "id?"
    · subst hcmd; rw [handleCmd_id]; rfl
    · rw [handleCmd_read env st cmd hcmd]; rfl
  · rw [setupTrace_shape]
    intro hmem
    rcases List.mem_cons.mp hmem with heq | hmem
    · simp [NEO_DIM, NEO_BRIGHT] at heq
    rcases List.mem_append.mp hmem with h | h
    · exact noShow_setupMids N 0 0 NEO_DIM h
    · simp [NEO_DIM] at h

theorem claim_C6_witness :
    (∀ i < 2, envW.bmeBeginOk i = false) ∧ envW.bmeBeginOk 2 = true ∧
    InitColorSpec envW 2 :=
  ⟨by decide, by decide, claim_C6 envW 2 (by decide) (by decide)⟩

/-- Claim C7: after the I2C driver first succeeds, exactly one
temperature, one humidity and one pressure reading are taken and
discarded before the Idle state is entered, and these three index-0
warm-up readings never appear in any response line (every response uses
BME280 call indices at least 1). -/
theorem claim_C7 (env : Env) (N : ℕ)
    (hfail : ∀ i < N, env.bmeBeginOk i = false)
    (hok : env.bmeBeginOk N = true) : WarmupSpec env N := by
  refine ⟨setupRun_spec env N hfail hok, sensorReads_setupTrace N,
    ⟨Event.ledShow 0 0 NEO_BRIGHT :: Event.serialBegin 9600 ::
      Event.ds18Begin ::
      (List.replicate N
        [Event.serialLine bmeDiag, Event.delayMs 1000]).flatten, ?_⟩,
    rfl, rfl, rfl, rfl, rfl, rfl, rfl, ?_⟩
  · unfold setupTrace
    simp
  · intro polls s hs
    rcases linesOf_runLoop env polls warmState s hs with h | h
    · exact Or.inl h
    · rcases h with ⟨m, i1, i2, i3, i4, _, _, h2, h3, h4, hline⟩
      refine Or.inr ⟨m, i1, i2, i3, i4, ?_, ?_, ?_, hline⟩
      · simpa [warmState, initState] using h2
      · simpa [warmState, initState] using h3
      · simpa [warmState, initState] using h4

theorem claim_C7_witness :
    (∀ i < 2, envW.bmeBeginOk i = false) ∧ envW.bmeBeginOk 2 = true ∧
    WarmupSpec envW 2 :=
  ⟨by decide, by decide, claim_C7 envW 2 (by decide) (by decide)⟩

/-- Claim C8: across the responses of any run of `loop`, the timestamp
fields are non-decreasing, assuming the `millis()` oracle is
non-decreasing. -/
theorem claim_C8 (env : Env)
    (hmono : ∀ i j, i ≤ j → env.millis i ≤ env.millis j)
    (st : MCUState) (polls : List (Option String)) :
    List.Chain' (· ≤ ·) (respTimestamps (runLoop env st polls).2) :=
  respTimestamps_chain env hmono polls st

theorem claim_C8_witness :
    (∀ i j, i ≤ j → envW.millis i ≤ envW.millis j) ∧
    List.Chain' (· ≤ ·) (respTimestamps
      (runLoop envW initState
        [some "a", none, some "id?", some "b"]).2) :=
  ⟨fun _ _ h => Nat.add_le_add_left h 100,
   claim_C8 envW (fun _ _ h => Nat.add_le_add_left h 100) initState
     [some "a", none, some "id?", some "b"]⟩

/-- Claim C9: when the DS18B20 driver returns its not-a-number sentinel
for a "read sensors" request, that sentinel appears verbatim (as the
literal `nan`) in the second field of the unique, normally formatted
five-field response line, with no distinct error output. -/
theorem claim_C9 (env : Env) (st : MCUState) (cmd : String)
    (hcmd : cmd ≠ "id?")
    (hnan : env.ds18Vals st.ds18Count = FVal.nan) : NanSpec env st cmd := by
  unfold NanSpec
  rw [handleCmd_read env st cmd hcmd]
  refine ⟨rfl, ?_, ?_⟩
  · rw [reqLine_fields]
    rfl
  · rw [reqLine_fields, hnan]
    rfl

theorem claim_C9_witness :
    ("x" ≠ "id?") ∧ envN.ds18Vals initState.ds18Count = FVal.nan ∧
    NanSpec envN initState "x" :=
  ⟨by decide, rfl, claim_C9 envN initState "x" (by decide) rfl⟩

/-- Claim C10: processing an `id?` command leaves the whole state — in
particular the four stored reading variables — unchanged, so before any
"read sensors" request has been processed (any run polled with only
`id?` commands) all four retain their initial NAN value, the value they
hold at the end of `setup()`. -/
theorem claim_C10 (env : Env) (st : MCUState)
    (polls : List (Option String))
    (hid : ∀ p ∈ polls, p = none ∨ p = some "id?") :
    (handleCmd env st "id?").1 = st ∧
    (runLoop env st polls).1 = st ∧
    warmState.ds18_temp = FVal.nan ∧ warmState.bme280_temp = FVal.nan ∧
    warmState.bme280_humi = FVal.nan ∧ warmState.bme280_pres = FVal.nan :=
  ⟨by rw [handleCmd_id], runLoop_id_only env polls st hid,
   rfl, rfl, rfl, rfl⟩

theorem claim_C10_witness :
    (∀ p ∈ ([some "id?", none, some "id?"] : List (Option String)),
      p = none ∨ p = some "id?") ∧
    ((handleCmd envW warmState "id?").1 = warmState ∧
     (runLoop envW warmState [some "id?", none, some "id?"]).1 =
       warmState ∧
     warmState.ds18_temp = FVal.nan ∧ warmState.bme280_temp = FVal.nan ∧
     warmState.bme280_humi = FVal.nan ∧
     warmState.bme280_pres = FVal.nan) :=
  ⟨by decide, claim_C10 envW warmState [some "id?", none, some "id?"]
    (by decide)⟩

end Dodecahedron
